import Mathlib

/-!
Verification of the graphics-db semantic asset-discovery service.

The Python source is shallowly embedded: the external vector database
(similarity oracle) is modelled by lists of rows that carry, per row, the
cosine distance of each stored embedding to the (fixed) query embedding;
`ORDER BY <expr> LIMIT k` is modelled by a stable sort over the decidable
key relation followed by `List.take k`.  Floating-point scores are modelled
by rationals.  All definitions are computable and mirror the control flow of
the corresponding Python functions.
-/

namespace GraphicsDb

/-- A row of one of the asset tables, as seen by the hybrid search queries in
`db/crud.py`.  `clipDist` and `sbertDist` are the values of the SQL
expressions `clip_embedding <=> query_vector_clip` and
`sbert_embedding <=> query_vector_sbert` (cosine distances to the fixed
query embeddings); the embedding vectors themselves are black boxes, so the
row is represented by these per-row oracle outputs. -/
structure Row where
  uid : Nat
  clipDist : ℚ
  sbertDist : ℚ
deriving DecidableEq, Repr

/-- The `similarity_score` column computed by the SELECT in
`crud.search_assets`: `(1 - clip_dist) + (1 - sbert_dist)`. -/
def simScore (r : Row) : ℚ := (1 - r.clipDist) + (1 - r.sbertDist)

/-- The sort key of the inner `ORDER BY` in `crud.search_assets`:
`clip_dist + sbert_dist`. -/
def distSum (r : Row) : ℚ := r.clipDist + r.sbertDist

/-- Ascending order on the distance-sum (the inner `ORDER BY ... LIMIT`). -/
def distLe (a b : Row) : Prop := distSum a ≤ distSum b

/-- Descending order on `similarity_score` (the outer
`ORDER BY similarity_score DESC`). -/
def scoreGe (a b : Row) : Prop := simScore b ≤ simScore a

instance : DecidableRel distLe := fun a b =>
  decidable_of_iff (distSum a ≤ distSum b) Iff.rfl

instance : DecidableRel scoreGe := fun a b =>
  decidable_of_iff (simScore b ≤ simScore a) Iff.rfl

instance : IsTotal Row distLe := ⟨fun a b => le_total (distSum a) (distSum b)⟩

instance : IsTrans Row distLe := ⟨fun _ _ _ h h' => le_trans h h'⟩

instance : IsTotal Row scoreGe := ⟨fun a b => le_total (simScore b) (simScore a)⟩

instance : IsTrans Row scoreGe := ⟨fun _ _ _ h h' => le_trans h' h⟩

/-- One parenthesised sub-query of `crud.search_assets`:
`SELECT ... FROM <table> ORDER BY clip_dist + sbert_dist LIMIT top_k`. -/
def tableTopK (k : Nat) (t : List Row) : List Row :=
  (List.insertionSort distLe t).take k

/-- Model of `crud.search_assets` (db/crud.py): the per-table top-k sub-queries over
`objaverse_assets` and `polyhaven_assets` are combined by `UNION ALL`, the
union is ordered by `similarity_score DESC` and truncated by
`LIMIT top_k`.  An empty result is returned as an empty list (the Python
function only logs a warning). -/
def search_assets (objaverse polyhaven : List Row) (top_k : Nat) : List Row :=
  (List.insertionSort scoreGe (tableTopK top_k objaverse ++ tableTopK top_k polyhaven)).take
    top_k

end GraphicsDb

namespace GraphicsDb

theorem orderedInsert_dist_eq_score (a : Row) :
    ∀ l : List Row, l.orderedInsert distLe a = l.orderedInsert scoreGe a := by
  intro l
  induction l with
  | nil => rfl
  | cons b t ih =>
    show (if distLe a b then _ else _) = (if scoreGe a b then _ else _)
    have hiff : distLe a b ↔ scoreGe a b := by
      unfold distLe scoreGe simScore distSum
      constructor <;> intro h <;> linarith
    by_cases h : distLe a b
    · rw [if_pos h, if_pos (hiff.mp h)]
    · rw [if_neg h, if_neg (fun hc => h (hiff.mpr hc))]
      simp only [List.cons.injEq, true_and]
      exact ih

theorem insertionSort_dist_eq_score (l : List Row) :
    List.insertionSort distLe l = List.insertionSort scoreGe l := by
  induction l with
  | nil => rfl
  | cons a t ih =>
    show (List.insertionSort distLe t).orderedInsert distLe a
        = (List.insertionSort scoreGe t).orderedInsert scoreGe a
    rw [ih, orderedInsert_dist_eq_score]

end GraphicsDb

namespace GraphicsDb

theorem length_tableTopK (k : Nat) (t : List Row) : (tableTopK k t).length ≤ k := by
  simp [tableTopK, List.length_take]

theorem tableTopK_of_le (k : Nat) (t : List Row) (h : t.length ≤ k) :
    List.Perm (tableTopK k t) t := by
  unfold tableTopK
  rw [List.take_of_length_le (by rw [List.length_insertionSort]; exact h)]
  exact List.perm_insertionSort distLe t

/-- C1: for every pair of source tables and every `top_k ≥ 1`, the fused
search `crud.search_assets` returns at most `top_k` rows, sorted in
non-strictly descending order of `similarity_score`; when the two tables
together hold fewer than `top_k` rows it returns a permutation of all of
them, and on an empty corpus it returns the empty list (a value, not an
error). -/
theorem search_assets_fused_topk (objaverse polyhaven : List Row) (top_k : Nat)
    (htk : 1 ≤ top_k) :
    (search_assets objaverse polyhaven top_k).length ≤ top_k ∧
    List.Sorted scoreGe (search_assets objaverse polyhaven top_k) ∧
    (objaverse.length + polyhaven.length < top_k →
      List.Perm (search_assets objaverse polyhaven top_k) (objaverse ++ polyhaven)) ∧
    search_assets [] [] top_k = [] := by
  refine ⟨?_, ?_, ?_, ?_⟩
  · simp [search_assets, List.length_take]
  · exact (List.sorted_insertionSort scoreGe _).sublist (List.take_sublist _ _)
  · intro hsmall
    have h1 : objaverse.length ≤ top_k := by omega
    have h2 : polyhaven.length ≤ top_k := by omega
    have hlen : (tableTopK top_k objaverse ++ tableTopK top_k polyhaven).length ≤ top_k := by
      rw [List.length_append]
      have e1 := (tableTopK_of_le top_k objaverse h1).length_eq
      have e2 := (tableTopK_of_le top_k polyhaven h2).length_eq
      omega
    unfold search_assets
    rw [List.take_of_length_le (by rw [List.length_insertionSort]; exact hlen)]
    exact (List.perm_insertionSort scoreGe _).trans
      ((tableTopK_of_le top_k objaverse h1).append (tableTopK_of_le top_k polyhaven h2))
  · simp [search_assets, tableTopK]

/-- Witness for C1 at a concrete input: one table holding a single row,
`top_k = 3`. -/
theorem search_assets_fused_topk_witness :
    (search_assets [⟨1, 0, 0⟩] [] 3).length ≤ 3 ∧
    List.Sorted scoreGe (search_assets [⟨1, 0, 0⟩] [] 3) ∧
    List.Perm (search_assets [⟨1, 0, 0⟩] [] 3) ([⟨1, 0, 0⟩] ++ []) ∧
    search_assets [] [] 3 = [] := by
  have h := search_assets_fused_topk [⟨1, 0, 0⟩] [] 3 (by decide)
  exact ⟨h.1, h.2.1, h.2.2.1 (by decide), h.2.2.2⟩

/-- C2: in the hybrid search each row's `similarity_score` is
`(1 - clip_distance) + (1 - sbert_distance)`, which equals
`2 - (clip_distance + sbert_distance)`; consequently ascending order of the
distance-sum agrees pairwise with descending order of the similarity-sum,
and the stable sort of any candidate list by the distance-sum (the SQL
`ORDER BY`) is literally the same list as the stable sort by descending
`similarity_score`. -/
theorem hybrid_score_distance_ranking (r r' : Row) (l : List Row) :
    simScore r = (1 - r.clipDist) + (1 - r.sbertDist) ∧
    simScore r = 2 - distSum r ∧
    (distSum r ≤ distSum r' ↔ simScore r' ≤ simScore r) ∧
    List.insertionSort distLe l = List.insertionSort scoreGe l := by
  refine ⟨rfl, ?_, ?_, insertionSort_dist_eq_score l⟩
  · unfold simScore distSum; ring
  · unfold simScore distSum
    constructor <;> intro h <;> linarith

end GraphicsDb

namespace GraphicsDb

/-- A persisted asset row as returned by the per-table point lookups in
`crud.get_asset_by_uid` (the selected metadata columns are abstracted into
`payload`; only the `uid` column is inspected by the lookup logic). -/
structure DbRow where
  uid : String
  payload : Nat
deriving DecidableEq, Repr

/-- The `SELECT ... WHERE uid = %(uid)s` point query followed by
`fetchone()`: the first row of the table whose `uid` column matches. -/
def fetchOneByUid (table : List DbRow) (uid : String) : Option DbRow :=
  table.find? (fun r => r.uid == uid)

/-- Model of `crud.get_asset_by_uid` (db/crud.py): probe `objaverse_assets` first and
return the row when found; otherwise return the result of the same lookup
on `polyhaven_assets` (which is `none` on a miss — Python `None`). -/
def get_asset_by_uid (objaverse polyhaven : List DbRow) (uid : String) : Option DbRow :=
  match fetchOneByUid objaverse uid with
  | some r => some r
  | none => fetchOneByUid polyhaven uid

/-- C6: the resolver returns the `objaverse_assets` row when one with the
requested uid exists, independently of the contents of `polyhaven_assets`;
otherwise it returns the `polyhaven_assets` lookup, and when neither table
holds the uid it returns `none` (a not-found value, never an error). -/
theorem get_asset_by_uid_priority (objaverse polyhaven polyhaven' : List DbRow)
    (uid : String) (r : DbRow) :
    (fetchOneByUid objaverse uid = some r →
      get_asset_by_uid objaverse polyhaven uid = some r ∧
      get_asset_by_uid objaverse polyhaven uid = get_asset_by_uid objaverse polyhaven' uid) ∧
    (fetchOneByUid objaverse uid = none →
      get_asset_by_uid objaverse polyhaven uid = fetchOneByUid polyhaven uid) ∧
    (fetchOneByUid objaverse uid = none → fetchOneByUid polyhaven uid = none →
      get_asset_by_uid objaverse polyhaven uid = none) := by
  refine ⟨fun h => ?_, fun h => ?_, fun h h' => ?_⟩
  · unfold get_asset_by_uid
    rw [h]
    exact ⟨rfl, rfl⟩
  · unfold get_asset_by_uid
    rw [h]
  · unfold get_asset_by_uid
    rw [h, h']

/-- Witness for C6 at a concrete input: the uid `"a"` is present in both
tables with different payloads and the objaverse row wins (independently of
the polyhaven table); `"b"` is only in polyhaven; `"c"` is in neither and
yields `none`. -/
theorem get_asset_by_uid_priority_witness :
    get_asset_by_uid [⟨"a", 1⟩] [⟨"a", 2⟩, ⟨"b", 3⟩] "a" = some ⟨"a", 1⟩ ∧
    get_asset_by_uid [⟨"a", 1⟩] [⟨"a", 2⟩, ⟨"b", 3⟩] "a" =
      get_asset_by_uid [⟨"a", 1⟩] [] "a" ∧
    get_asset_by_uid [⟨"a", 1⟩] [⟨"a", 2⟩, ⟨"b", 3⟩] "b" = some ⟨"b", 3⟩ ∧
    get_asset_by_uid [⟨"a", 1⟩] [⟨"a", 2⟩, ⟨"b", 3⟩] "c" = none := by
  have h1 := (get_asset_by_uid_priority [⟨"a", 1⟩] [⟨"a", 2⟩, ⟨"b", 3⟩] [] "a" ⟨"a", 1⟩).1
    (by rfl)
  have h2 := (get_asset_by_uid_priority [⟨"a", 1⟩] [⟨"a", 2⟩, ⟨"b", 3⟩] [] "b" ⟨"a", 1⟩).2.1
    (by rfl)
  have h3 := (get_asset_by_uid_priority [⟨"a", 1⟩] [⟨"a", 2⟩, ⟨"b", 3⟩] [] "c"
    ⟨"a", 1⟩).2.2 (by rfl) (by rfl)
  exact ⟨h1.1, h1.2, by rw [h2]; rfl, h3⟩

end GraphicsDb

namespace GraphicsDb

/-- Per-asset rendering environment for `utils/thumbnail.py`:
`existsBefore` is whether the target PNG already exists on disk, and
`renderResult` is the outcome of the pyvista import/screenshot pipeline
(`Except.error` models an exception raised while processing the file). -/
structure ThumbEnv where
  existsBefore : Bool
  renderResult : Except Unit Unit

/-- Model of `generate_thumbnail_from_glb` (utils/thumbnail.py), given by the
existence of the output PNG after the call: when the thumbnail already
exists and `overwrite` is false the renderer is skipped; otherwise the
pyvista pipeline runs inside a `try/except` that catches every exception
and only logs it, so a failed render leaves the previous file state and the
function always returns (it never re-raises). -/
def generate_thumbnail_from_glb (env : ThumbEnv) (overwrite : Bool) : Bool :=
  if env.existsBefore && !overwrite then
    true
  else
    match env.renderResult with
    | .ok _ => true
    | .error _ => env.existsBefore

/-- Model of `get_thumbnails` (sources/from_objaverse.py): iterate over the asset
paths in order, invoke the per-file renderer on each, and include a uid in
the returned thumbnail map exactly when its output PNG exists afterwards. -/
def get_thumbnails (fs : String → ThumbEnv) (assetPaths : List String) : List String :=
  assetPaths.filter (fun uid => generate_thumbnail_from_glb (fs uid) false)

/-- C7: the thumbnail batch is a total function of the per-file outcomes —
a uid whose render raises (and whose PNG did not already exist) is omitted
from the returned map, every other uid in the batch is still processed and
kept when its thumbnail materialises, and the whole batch is exactly the
filter of the input uids by per-file success (no exception escapes the
per-file renderer to abort the batch). -/
theorem get_thumbnails_batch_isolation (fs : String → ThumbEnv) (uids : List String) :
    (∀ u, (fs u).renderResult = .error () → (fs u).existsBefore = false →
      u ∉ get_thumbnails fs uids) ∧
    (∀ u ∈ uids, generate_thumbnail_from_glb (fs u) false = true →
      u ∈ get_thumbnails fs uids) ∧
    get_thumbnails fs uids = uids.filter (fun u => generate_thumbnail_from_glb (fs u) false) := by
  refine ⟨fun u herr hex hmem => ?_, fun u hu hok => ?_, rfl⟩
  · have := (List.mem_filter.mp hmem).2
    rw [generate_thumbnail_from_glb, hex, herr] at this
    simp at this
  · exact List.mem_filter.mpr ⟨hu, hok⟩

/-- Witness for C7 at a concrete input: a batch of three uids in which the
middle one fails to render returns exactly the other two. -/
theorem get_thumbnails_batch_isolation_witness :
    "bad" ∉ get_thumbnails
      (fun u => if u == "bad" then ⟨false, .error ()⟩ else ⟨false, .ok ()⟩)
      ["a", "bad", "b"] ∧
    "a" ∈ get_thumbnails
      (fun u => if u == "bad" then ⟨false, .error ()⟩ else ⟨false, .ok ()⟩)
      ["a", "bad", "b"] ∧
    "b" ∈ get_thumbnails
      (fun u => if u == "bad" then ⟨false, .error ()⟩ else ⟨false, .ok ()⟩)
      ["a", "bad", "b"] := by
  have h := get_thumbnails_batch_isolation
    (fun u => if u == "bad" then ⟨false, .error ()⟩ else ⟨false, .ok ()⟩)
    ["a", "bad", "b"]
  exact ⟨h.1 "bad" (by rfl) (by rfl),
    h.2.1 "a" (by simp) (by rfl),
    h.2.1 "b" (by simp) (by rfl)⟩

end GraphicsDb

namespace GraphicsDb

/-- The axis-aligned bounding box computed by
`plotter.renderer.ComputeVisiblePropBounds()` in
`utils/asset_validation.py` (a successfully computed 6-tuple
`(xmin, xmax, ymin, ymax, zmin, zmax)`). -/
structure GlbBounds where
  xmin : ℚ
  xmax : ℚ
  ymin : ℚ
  ymax : ℚ
  zmin : ℚ
  zmax : ℚ
deriving DecidableEq, Repr

/-- The rejection reason built by `validate_asset_scale`.  The Python
function interpolates the computed values into a message string
(`f"Asset too large: max edge is {max_edge:.2f}m (limit: {max_edge_length}m)"`);
the constructor fields are exactly the two interpolated values, so a reason
"contains" the computed max edge by carrying it as `maxEdge`. -/
inductive ValidationReason where
  | tooLarge (maxEdge limit : ℚ)
deriving DecidableEq, Repr

/-- Python's built-in `abs` on a rational. -/
def pyAbs (q : ℚ) : ℚ := if q < 0 then -q else q

/-- Python's built-in binary `max` on rationals (`max(a, b)`). -/
def pyMax (a b : ℚ) : ℚ := if b ≤ a then a else b

/-- The three per-axis sizes `abs(bounds[i+1] - bounds[i])` and their
maximum `max(x_size, y_size, z_size)` from `validate_asset_scale`. -/
def maxEdgeOf (b : GlbBounds) : ℚ :=
  pyMax (pyAbs (b.xmax - b.xmin)) (pyMax (pyAbs (b.ymax - b.ymin)) (pyAbs (b.zmax - b.zmin)))

/-- Model of `validate_asset_scale` (utils/asset_validation.py) on a successfully
loaded GLB with computed bounds: returns `(False, reason)` when
`max_edge > max_edge_length` (strictly), `(True, None)` otherwise. -/
def validate_asset_scale (b : GlbBounds) (max_edge_length : ℚ) :
    Bool × Option ValidationReason :=
  let max_edge := maxEdgeOf b
  if max_edge_length < max_edge then
    (false, some (.tooLarge max_edge max_edge_length))
  else
    (true, none)

/-- C4: an asset whose maximum bounding-box edge equals the threshold
passes scale validation, one whose maximum edge strictly exceeds it is
rejected, and the rejection reason carries the computed maximum edge (the
value interpolated into the reason string). -/
theorem validate_asset_scale_boundary (b : GlbBounds) (t : ℚ) :
    (maxEdgeOf b = t → validate_asset_scale b t = (true, none)) ∧
    (t < maxEdgeOf b →
      validate_asset_scale b t = (false, some (.tooLarge (maxEdgeOf b) t))) := by
  constructor
  · intro heq
    unfold validate_asset_scale
    rw [heq, if_neg (lt_irrefl t)]
  · intro hlt
    unfold validate_asset_scale
    rw [if_pos hlt]

/-- Witness for C4 at the spec's example: threshold `100`, a box of max
edge exactly `100` passes, and one of max edge `100.01` is rejected with
the computed value in the reason. -/
theorem validate_asset_scale_boundary_witness :
    validate_asset_scale ⟨0, 100, 0, 1, 0, 1⟩ 100 = (true, none) ∧
    validate_asset_scale ⟨0, 10001 / 100, 0, 1, 0, 1⟩ 100 =
      (false, some (.tooLarge (10001 / 100) 100)) := by
  have hme1 : maxEdgeOf ⟨0, 100, 0, 1, 0, 1⟩ = 100 := by
    norm_num [maxEdgeOf, pyMax, pyAbs]
  have hme2 : maxEdgeOf ⟨0, 10001 / 100, 0, 1, 0, 1⟩ = 10001 / 100 := by
    norm_num [maxEdgeOf, pyMax, pyAbs]
  constructor
  · exact (validate_asset_scale_boundary ⟨0, 100, 0, 1, 0, 1⟩ 100).1 hme1
  · have h := (validate_asset_scale_boundary ⟨0, 10001 / 100, 0, 1, 0, 1⟩ 100).2 (by
      rw [hme2]; norm_num)
    rw [h, hme2]

end GraphicsDb

namespace GraphicsDb

/-- A row of `objaverse_assets` as selected by
`ObjaverseCRUD.search_assets` (db/objaverse_crud.py).  As in `Row`, the two
distance fields are the oracle's per-row cosine distances to the fixed
query embeddings. -/
structure ObjRow where
  uid : String
  asset_category : Option String
  has_textures : Bool
  geometric_complexity : String
  clipDist : ℚ
  sbertDist : ℚ
deriving DecidableEq, Repr

/-- A row of `polyhaven_assets` as selected by
`PolyhavenCRUD.search_assets` (db/polyhaven_crud.py). -/
structure MatRow where
  uid : String
  asset_category : Option String
  surface_type : String
  asset_type : String
  resolution_available : List String
  clipDist : ℚ
  sbertDist : ℚ
deriving DecidableEq, Repr

/-- Distance-sum sort key of `ObjaverseCRUD.search_assets`. -/
def objDistSum (r : ObjRow) : ℚ := r.clipDist + r.sbertDist

/-- Ascending distance-sum order on objaverse rows. -/
def objDistLe (a b : ObjRow) : Prop := objDistSum a ≤ objDistSum b

instance : DecidableRel objDistLe := fun a b =>
  decidable_of_iff (objDistSum a ≤ objDistSum b) Iff.rfl

/-- Distance-sum sort key of `PolyhavenCRUD.search_assets`. -/
def matDistSum (r : MatRow) : ℚ := r.clipDist + r.sbertDist

/-- Ascending distance-sum order on polyhaven rows. -/
def matDistLe (a b : MatRow) : Prop := matDistSum a ≤ matDistSum b

instance : DecidableRel matDistLe := fun a b =>
  decidable_of_iff (matDistSum a ≤ matDistSum b) Iff.rfl

/-- Model of `ObjaverseCRUD.search_assets` (db/objaverse_crud.py): an optional
`WHERE asset_category = %(category_filter)s` clause, then
`ORDER BY clip_dist + sbert_dist LIMIT top_k`. -/
def objaverseCrudSearch (db : List ObjRow) (top_k : Nat)
    (category_filter : Option String) : List ObjRow :=
  let base := match category_filter with
    | some c => db.filter (fun r => r.asset_category == some c)
    | none => db
  (List.insertionSort objDistLe base).take top_k

/-- Model of `PolyhavenCRUD.search_assets` (db/polyhaven_crud.py): the same shape of
query over `polyhaven_assets`. -/
def polyhavenCrudSearch (db : List MatRow) (top_k : Nat)
    (category_filter : Option String) : List MatRow :=
  let base := match category_filter with
    | some c => db.filter (fun r => r.asset_category == some c)
    | none => db
  (List.insertionSort matDistLe base).take top_k

/-- The `has_textures` post-fetch predicate of
`search_objects` (api/v0/endpoints/objects.py). -/
def applyHasTexturesFilter (has_textures : Option Bool) (rows : List ObjRow) :
    List ObjRow :=
  match has_textures with
  | some b => rows.filter (fun r => r.has_textures == b)
  | none => rows

/-- The `complexity` post-fetch predicate of `search_objects`. -/
def applyComplexityFilter (complexity : Option String) (rows : List ObjRow) :
    List ObjRow :=
  match complexity with
  | some c => rows.filter (fun r => r.geometric_complexity == c)
  | none => rows

/-- The `surface_type` post-fetch predicate of
`search_materials` (api/v0/endpoints/materials.py). -/
def applySurfaceTypeFilter (surface_type : Option String) (rows : List MatRow) :
    List MatRow :=
  match surface_type with
  | some st => rows.filter (fun r => r.surface_type == st)
  | none => rows

/-- The `asset_type` post-fetch predicate of `search_materials`: the filter
body runs only under `if asset_type != "texture"` (the parameter's default
value). -/
def applyAssetTypeFilter (asset_type : String) (rows : List MatRow) : List MatRow :=
  if asset_type ≠ "texture" then rows.filter (fun r => r.asset_type == asset_type)
  else rows

/-- The `resolution_order` dict lookup `resolution_order.get(res, 0)` used
on each candidate's available resolutions in `search_materials`. -/
def resOrd (s : String) : Nat :=
  if s = "1k" then 1 else if s = "2k" then 2 else if s = "4k" then 4
  else if s = "8k" then 8 else 0

/-- The `resolution_order.get(resolution, 1)` lookup (`min_res_level`) for
the requested minimum resolution in `search_materials` (default 1). -/
def reqOrd (s : String) : Nat :=
  if s = "1k" then 1 else if s = "2k" then 2 else if s = "4k" then 4
  else if s = "8k" then 8 else 1

/-- The `resolution` post-fetch predicate of `search_materials`: a row is
kept when any of its available resolutions has ordinal ≥ `min_res_level`. -/
def applyResolutionFilter (resolution : Option String) (rows : List MatRow) :
    List MatRow :=
  match resolution with
  | some r =>
      rows.filter (fun row =>
        row.resolution_available.any (fun s => decide (reqOrd r ≤ resOrd s)))
  | none => rows

/-- The body of the `search_objects` endpoint
(api/v0/endpoints/objects.py) with the oracle fetch limit made explicit as
`fetchLimit`: fetch candidates, apply the `has_textures` and `complexity`
predicates, and truncate to `top_k`. -/
def searchObjectsPipeline (db : List ObjRow) (top_k fetchLimit : Nat)
    (category : Option String) (has_textures : Option Bool)
    (complexity : Option String) : List ObjRow :=
  let results := objaverseCrudSearch db fetchLimit category
  let f1 := applyHasTexturesFilter has_textures results
  let f2 := applyComplexityFilter complexity f1
  f2.take top_k

/-- Endpoint `search_objects` as written in the source: the CRUD search is invoked
with `top_k=top_k`, i.e. the fetch limit equals `top_k`. -/
def search_objects (db : List ObjRow) (top_k : Nat) (category : Option String)
    (has_textures : Option Bool) (complexity : Option String) : List ObjRow :=
  searchObjectsPipeline db top_k top_k category has_textures complexity

/-- The body of the `search_materials` endpoint
(api/v0/endpoints/materials.py) with the oracle fetch limit made explicit
as `fetchLimit`: fetch candidates, apply the `surface_type`, `asset_type`
and `resolution` predicates in that order, and truncate to `top_k`. -/
def searchMaterialsPipeline (db : List MatRow) (top_k fetchLimit : Nat)
    (category surface_type : Option String) (asset_type : String)
    (resolution : Option String) : List MatRow :=
  let results := polyhavenCrudSearch db fetchLimit category
  let f1 := applySurfaceTypeFilter surface_type results
  let f2 := applyAssetTypeFilter asset_type f1
  let f3 := applyResolutionFilter resolution f2
  f3.take top_k

/-- Endpoint `search_materials` as written in the source: the CRUD search is invoked
with `top_k=top_k`, i.e. the fetch limit equals `top_k`. -/
def search_materials (db : List MatRow) (top_k : Nat)
    (category surface_type : Option String) (asset_type : String)
    (resolution : Option String) : List MatRow :=
  searchMaterialsPipeline db top_k top_k category surface_type asset_type resolution

end GraphicsDb

namespace GraphicsDb

/-- C3 counterexample: with `top_k = 1` and the post-fetch `surface_type`
predicate active, the materials endpoint as written fetches only `top_k`
candidates: the closest row (`m1`, smooth) is fetched and filtered away,
giving an empty result, whereas the claimed 3×-over-provisioned fetch would
fetch both rows and return the matching `m2`.  The two observable outputs
differ, so the claim that the initial fetch uses a limit of `3 * top_k` is
false of the code. -/
theorem search_materials_no_overprovision_cex :
    search_materials [⟨"m1", none, "smooth", "texture", [], 0, 0⟩,
        ⟨"m2", none, "rough", "texture", [], 1, 1⟩] 1 none (some "rough") "texture" none
      = [] ∧
    searchMaterialsPipeline [⟨"m1", none, "smooth", "texture", [], 0, 0⟩,
        ⟨"m2", none, "rough", "texture", [], 1, 1⟩] 1 (3 * 1) none (some "rough")
        "texture" none
      = [⟨"m2", none, "rough", "texture", [], 1, 1⟩] ∧
    ([] : List MatRow) ≠ [⟨"m2", none, "rough", "texture", [], 1, 1⟩] := by
  refine ⟨?_, ?_, by simp⟩
  · norm_num [search_materials, searchMaterialsPipeline, polyhavenCrudSearch,
      applySurfaceTypeFilter, applyAssetTypeFilter, applyResolutionFilter,
      List.insertionSort, List.orderedInsert, matDistLe, matDistSum, List.filter]
    rfl
  · norm_num [searchMaterialsPipeline, polyhavenCrudSearch,
      applySurfaceTypeFilter, applyAssetTypeFilter, applyResolutionFilter,
      List.insertionSort, List.orderedInsert, matDistLe, matDistSum, List.filter]
    rfl

/-- C3 as amended: in both the objects and the materials search endpoints
the initial candidate fetch issued to the similarity oracle always uses a
limit equal to `top_k` — also when post-fetch predicates are active — so
the candidate set entering the post-fetch filters never holds more than
`top_k` rows; there is no 3× over-provisioning. -/
theorem search_endpoints_fetch_limit_topk (objDb : List ObjRow) (matDb : List MatRow)
    (top_k : Nat) (category : Option String) (has_textures : Option Bool)
    (complexity surface_type : Option String) (asset_type : String)
    (resolution : Option String) :
    search_objects objDb top_k category has_textures complexity
      = searchObjectsPipeline objDb top_k top_k category has_textures complexity ∧
    (objaverseCrudSearch objDb top_k category).length ≤ top_k ∧
    search_materials matDb top_k category surface_type asset_type resolution
      = searchMaterialsPipeline matDb top_k top_k category surface_type asset_type
          resolution ∧
    (polyhavenCrudSearch matDb top_k category).length ≤ top_k := by
  refine ⟨rfl, ?_, rfl, ?_⟩
  · cases category <;> simp [objaverseCrudSearch, List.length_take]
  · cases category <;> simp [polyhavenCrudSearch, List.length_take]

end GraphicsDb

namespace GraphicsDb

/-- C8: for a requested minimum resolution in `{1k, 2k, 4k, 8k}`, a
candidate survives the resolution filter of the materials endpoint exactly
when some entry of its `resolution_available` list maps under the ordinal
map (`1k→1, 2k→2, 4k→4, 8k→8`, unknown→0) to an ordinal at least that of
the requested resolution. -/
theorem resolution_filter_ordinal (r : String)
    (hr : r = "1k" ∨ r = "2k" ∨ r = "4k" ∨ r = "8k") (rows : List MatRow)
    (row : MatRow) :
    row ∈ applyResolutionFilter (some r) rows ↔
      row ∈ rows ∧ ∃ s ∈ row.resolution_available, resOrd r ≤ resOrd s := by
  have hreq : reqOrd r = resOrd r := by
    rcases hr with h | h | h | h <;> subst h <;> rfl
  unfold applyResolutionFilter
  rw [List.mem_filter]
  constructor
  · rintro ⟨hmem, hany⟩
    refine ⟨hmem, ?_⟩
    obtain ⟨s, hs, hp⟩ := List.any_eq_true.mp hany
    exact ⟨s, hs, by rw [← hreq]; exact of_decide_eq_true hp⟩
  · rintro ⟨hmem, s, hs, hp⟩
    exact ⟨hmem, List.any_eq_true.mpr ⟨s, hs, decide_eq_true (by rw [hreq]; exact hp)⟩⟩

/-- Witness for C8 at a concrete input: requested minimum `2k`; a row whose
available resolutions are `["1k", "4k"]` passes (via `4k`, ordinal 4 ≥ 2). -/
theorem resolution_filter_ordinal_witness :
    (⟨"w", none, "rough", "texture", ["1k", "4k"], 0, 0⟩ : MatRow) ∈
      applyResolutionFilter (some "2k")
        [⟨"w", none, "rough", "texture", ["1k", "4k"], 0, 0⟩] := by
  exact (resolution_filter_ordinal "2k" (Or.inr (Or.inl rfl))
      [⟨"w", none, "rough", "texture", ["1k", "4k"], 0, 0⟩]
      ⟨"w", none, "rough", "texture", ["1k", "4k"], 0, 0⟩).mpr
    ⟨by simp, "4k", by simp, by decide⟩

/-- C10: the default `asset_type="texture"` of the materials endpoint
applies no predicate at all — the asset-type filter stage is the identity
when the supplied value is `"texture"` — so rows whose stored `asset_type`
differs (e.g. `hdri`) flow through unchanged: a concrete search with the
default asset type returns an `hdri` row. -/
theorem asset_type_default_no_filter (rows : List MatRow) :
    applyAssetTypeFilter "texture" rows = rows ∧
    search_materials [⟨"h", none, "smooth", "hdri", [], 0, 0⟩] 1 none none "texture"
        none
      = [⟨"h", none, "smooth", "hdri", [], 0, 0⟩] ∧
    (⟨"h", none, "smooth", "hdri", [], 0, 0⟩ : MatRow).asset_type = "hdri" := by
  refine ⟨?_, ?_, rfl⟩
  · unfold applyAssetTypeFilter
    rw [if_neg (by simp)]
  · norm_num [search_materials, searchMaterialsPipeline, polyhavenCrudSearch,
      applySurfaceTypeFilter, applyAssetTypeFilter, applyResolutionFilter,
      List.insertionSort, List.orderedInsert, matDistLe, matDistSum, List.filter]

end GraphicsDb

namespace GraphicsDb

/-- One entry of `objaverse.load_annotations()` as consumed by
`load_objaverse_assets` (sources/from_objaverse.py): `ok` abbreviates the
candidate checks (required fields present and both embeddings found) that
decide whether the entry becomes a candidate asset. -/
structure AnnEntry where
  uid : String
  ok : Bool
deriving DecidableEq, Repr

/-- The `scale_resolution_strategy` string parameter of
`load_objaverse_assets` (values used by the code: "reject", "rescale"). -/
inductive ScaleStrategy where
  | reject
  | rescale
deriving DecidableEq, Repr

/-- The expression `target_candidates = limit * 2 if validate_scale and limit
is not None else limit`. -/
def targetCandidates (limit : Option Nat) (validate_scale : Bool) : Option Nat :=
  if validate_scale then limit.map (fun l => l * 2) else limit

/-- The break condition `target_candidates is not None and
len(candidate_assets) >= target_candidates`. -/
def hitTarget (target : Option Nat) (count : Nat) : Bool :=
  match target with
  | some t => decide (t ≤ count)
  | none => false

/-- The candidate-collection loop of `load_objaverse_assets`: walk the
entries in order, skip non-candidates, append candidate uids, and break as
soon as the running count reaches the target (checked right after each
append). -/
def collectLoop (target : Option Nat) : Nat → List AnnEntry → List String
  | _, [] => []
  | count, a :: rest =>
    if a.ok then
      if hitTarget target (count + 1) then [a.uid]
      else a.uid :: collectLoop target (count + 1) rest
    else collectLoop target count rest

/-- The full list `candidate_uids` collected by `load_objaverse_assets`
before any download or validation. -/
def collectedCandidates (anns : List AnnEntry) (limit : Option Nat)
    (validate_scale : Bool) : List String :=
  collectLoop (targetCandidates limit validate_scale) 0 anns

/-- The break condition `limit is not None and len(valid_assets) >= limit`. -/
def breakHit (limit : Option Nat) (n : Nat) : Bool :=
  match limit with
  | some l => decide (l ≤ n)
  | none => false

/-- The post-validation filter loop of `load_objaverse_assets`: a candidate
that passed validation is appended and the loop breaks once `limit` valid
assets are gathered; a candidate that failed validation is skipped under
the "reject" strategy (Python `continue`, which also skips the break
check), and raises `NotImplementedError` (modelled by `Except.error`) under
the "rescale" strategy. -/
def filterLoop (strategy : ScaleStrategy) (limit : Option Nat)
    (valid : String → Bool) : List String → List String → Except Unit (List String)
  | [], acc => .ok acc
  | u :: rest, acc =>
    if valid u then
      if breakHit limit (acc ++ [u]).length then .ok (acc ++ [u])
      else filterLoop strategy limit valid rest (acc ++ [u])
    else
      match strategy with
      | .reject => filterLoop strategy limit valid rest acc
      | .rescale => .error ()

/-- The set of uids `validate_asset_scales` is actually run on: all
collected candidates that were successfully downloaded (a uid missing from
`asset_paths` is not loaded, its entry in the results map just defaults to
`False` at lookup time). -/
def validatedUids (anns : List AnnEntry) (limit : Option Nat)
    (validate_scale : Bool) (downloadOk : String → Bool) : List String :=
  let cands := collectedCandidates anns limit validate_scale
  if validate_scale = false then []
  else if cands = [] then []
  else cands.filter downloadOk

/-- Model of `load_objaverse_assets` (sources/from_objaverse.py), returning the list
of accepted asset uids or the `NotImplementedError` raised by the
"rescale" branch.  `downloadOk` tells which candidate uids
`download_assets` materialises and `scaleOk` which downloaded files pass
`validate_asset_scale`; `validation_results.get(uid, False)` is their
conjunction. -/
def load_objaverse_assets (anns : List AnnEntry) (limit : Option Nat)
    (validate_scale : Bool) (strategy : ScaleStrategy)
    (downloadOk scaleOk : String → Bool) : Except Unit (List String) :=
  let cands := collectedCandidates anns limit validate_scale
  if validate_scale = false then
    .ok (match limit with
      | some l => cands.take l
      | none => cands)
  else if cands = [] then .ok []
  else filterLoop strategy limit (fun u => downloadOk u && scaleOk u) cands []

end GraphicsDb

namespace GraphicsDb

theorem collectLoop_length_le (t : Nat) :
    ∀ (anns : List AnnEntry) (count : Nat), count < t →
      (collectLoop (some t) count anns).length ≤ t - count := by
  intro anns
  induction anns with
  | nil => intro count hc; simp [collectLoop]
  | cons a rest ih =>
    intro count hc
    unfold collectLoop
    by_cases hok : a.ok
    · rw [if_pos hok]
      by_cases hhit : hitTarget (some t) (count + 1) = true
      · rw [if_pos hhit]
        have : t ≤ count + 1 := by
          simpa [hitTarget] using hhit
        simp only [List.length_cons, List.length_nil]
        omega
      · rw [if_neg hhit]
        have hlt : count + 1 < t := by
          have : ¬(t ≤ count + 1) := by
            simpa [hitTarget] using hhit
          omega
        have := ih (count + 1) hlt
        simp only [List.length_cons]
        omega
    · rw [if_neg hok]
      exact ih count hc

theorem filterLoop_ok_length (strategy : ScaleStrategy) (l : Nat)
    (valid : String → Bool) :
    ∀ (cands acc out : List String), acc.length < l →
      filterLoop strategy (some l) valid cands acc = .ok out → out.length ≤ l := by
  intro cands
  induction cands with
  | nil =>
    intro acc out hacc heq
    simp only [filterLoop, Except.ok.injEq] at heq
    subst heq
    omega
  | cons u rest ih =>
    intro acc out hacc heq
    unfold filterLoop at heq
    by_cases hv : valid u = true
    · rw [if_pos hv] at heq
      by_cases hb : breakHit (some l) (acc ++ [u]).length = true
      · rw [if_pos hb] at heq
        simp only [Except.ok.injEq] at heq
        subst heq
        simp only [List.length_append, List.length_cons, List.length_nil]
        omega
      · rw [if_neg hb] at heq
        have hlt : (acc ++ [u]).length < l := by
          have : ¬(l ≤ (acc ++ [u]).length) := by
            simpa [breakHit] using hb
          omega
        exact ih (acc ++ [u]) out hlt heq
    · rw [if_neg hv] at heq
      cases strategy with
      | reject => exact ih acc out hacc heq
      | rescale => exact absurd heq (by simp)

theorem filterLoop_rescale_error_iff (l : Nat) (valid : String → Bool) :
    ∀ (cands acc : List String), acc.length < l →
      (filterLoop .rescale (some l) valid cands acc = .error () ↔
        ∃ u ∈ cands.take (l - acc.length), valid u = false) := by
  intro cands
  induction cands with
  | nil =>
    intro acc hacc
    simp [filterLoop]
  | cons u rest ih =>
    intro acc hacc
    unfold filterLoop
    by_cases hv : valid u = true
    · rw [if_pos hv]
      by_cases hb : breakHit (some l) (acc ++ [u]).length = true
      · rw [if_pos hb]
        have hle : l = acc.length + 1 := by
          have : l ≤ acc.length + 1 := by
            simpa [breakHit] using hb
          omega
        have htake : l - acc.length = 1 := by omega
        rw [htake]
        simp only [List.take_succ_cons, List.take_zero]
        constructor
        · intro h; exact absurd h (by simp)
        · rintro ⟨u', hu', hval⟩
          simp only [List.mem_singleton] at hu'
          subst hu'
          rw [hv] at hval
          exact absurd hval (by simp)
      · rw [if_neg hb]
        have hlt : (acc ++ [u]).length < l := by
          have : ¬(l ≤ (acc ++ [u]).length) := by
            simpa [breakHit] using hb
          omega
        rw [ih (acc ++ [u]) hlt]
        have hstep : l - acc.length = (l - (acc ++ [u]).length) + 1 := by
          simp only [List.length_append, List.length_cons, List.length_nil] at hlt ⊢
          omega
        rw [hstep]
        simp only [List.take_succ_cons, List.mem_cons]
        constructor
        · rintro ⟨u', hu', hval⟩
          exact ⟨u', Or.inr hu', hval⟩
        · rintro ⟨u', hu' | hu', hval⟩
          · subst hu'
            rw [hv] at hval
            exact absurd hval (by simp)
          · exact ⟨u', hu', hval⟩
    · rw [if_neg hv]
      have htake : l - acc.length = (l - acc.length - 1) + 1 := by omega
      constructor
      · intro _
        refine ⟨u, ?_, by simpa using hv⟩
        rw [htake]
        simp [List.take_succ_cons]
      · intro _
        rfl

end GraphicsDb

namespace GraphicsDb

/-- C5 counterexample: with scale validation enabled and the "rescale"
strategy selected, the loader returns results normally whenever no
collected candidate fails validation — here once with a single passing
candidate and once with an empty candidate set — instead of failing with
`NotImplementedError` before returning any result, as claimed. -/
theorem load_rescale_returns_ok_cex :
    load_objaverse_assets [⟨"a", true⟩] (some 1) true .rescale (fun _ => true)
      (fun _ => true) = .ok ["a"] ∧
    load_objaverse_assets [] (some 1) true .rescale (fun _ => true)
      (fun _ => true) = .ok [] := ⟨rfl, rfl⟩

/-- C5 as amended: with scale validation enabled, a finite limit ≥ 1 and
the "rescale" strategy, the loader raises `NotImplementedError` exactly
when the filter loop actually reaches a candidate that failed validation —
that is, when one of the first `limit` collected candidates fails the
download-and-scale check; it never silently treats such a reached failing
candidate as rejected, but when every reached candidate passes (or no
candidates exist) it returns normally. -/
theorem load_rescale_error_iff (anns : List AnnEntry) (l : Nat)
    (downloadOk scaleOk : String → Bool) (hl : 1 ≤ l) :
    load_objaverse_assets anns (some l) true .rescale downloadOk scaleOk = .error () ↔
      ∃ u ∈ (collectedCandidates anns (some l) true).take l,
        (downloadOk u && scaleOk u) = false := by
  unfold load_objaverse_assets
  rw [if_neg (by simp)]
  by_cases hc : collectedCandidates anns (some l) true = []
  · rw [if_pos hc, hc]
    simp
  · rw [if_neg hc]
    have h := filterLoop_rescale_error_iff l (fun u => downloadOk u && scaleOk u)
      (collectedCandidates anns (some l) true) [] (by simpa using hl)
    simpa using h

/-- Witness for C5's amended theorem at a concrete input: one candidate
that fails validation makes the loader raise, and the reverse direction
certifies the failing candidate from the error. -/
theorem load_rescale_error_iff_witness :
    load_objaverse_assets [⟨"a", true⟩] (some 1) true .rescale (fun _ => true)
      (fun _ => false) = .error () ∧
    ∃ u ∈ (collectedCandidates [⟨"a", true⟩] (some 1) true).take 1,
      ((fun _ => true) u && (fun _ => false) u) = false := by
  constructor
  · exact (load_rescale_error_iff [⟨"a", true⟩] 1 (fun _ => true) (fun _ => false)
      (by decide)).mpr ⟨"a", by simp [collectedCandidates, collectLoop,
        targetCandidates, hitTarget], by simp⟩
  · exact (load_rescale_error_iff [⟨"a", true⟩] 1 (fun _ => true) (fun _ => false)
      (by decide)).mp rfl

/-- The spec's notion of the fewest validations "necessary to fill that
quota" (section 4.3: "it stops early once the validated quota is met,
never validating more than necessary"): the length of the shortest prefix
of the candidate list containing `quota` valid entries (0 when the quota
is already met or no candidates remain). -/
def minValidationsNeeded (valid : String → Bool) : Nat → List String → Nat
  | 0, _ => 0
  | _ + 1, [] => 0
  | quota + 1, u :: rest =>
    1 + minValidationsNeeded valid (if valid u then quota else quota + 1) rest

/-- C9 counterexample: loading with `limit = 1` and scale validation from
two valid candidate entries collects both (2 = 2×limit), runs scale
validation on both downloaded files, yet accepts only the first — while
validating the first candidate alone (1 validation) would already have
filled the quota.  So the loader does validate more candidates than
necessary to fill the quota, contrary to the claim's last conjunct. -/
theorem load_objaverse_overvalidates_cex :
    validatedUids [⟨"a", true⟩, ⟨"b", true⟩] (some 1) true (fun _ => true)
      = ["a", "b"] ∧
    load_objaverse_assets [⟨"a", true⟩, ⟨"b", true⟩] (some 1) true .reject
      (fun _ => true) (fun _ => true) = .ok ["a"] ∧
    minValidationsNeeded (fun _ => true) 1
        (collectedCandidates [⟨"a", true⟩, ⟨"b", true⟩] (some 1) true)
      < (validatedUids [⟨"a", true⟩, ⟨"b", true⟩] (some 1) true
          (fun _ => true)).length := by
  refine ⟨rfl, rfl, ?_⟩
  show 1 < 2
  omega

/-- C9 as amended: with scale validation enabled and a finite limit ≥ 1,
the loader collects at most 2×limit candidate assets before validation and
stops accepting validated assets once `limit` of them have passed (the
returned list never exceeds `limit`); however, scale validation is run
upfront on every collected (and successfully downloaded) candidate, not
only on the minimal prefix needed to fill the quota. -/
theorem load_objaverse_collect_validate (anns : List AnnEntry) (l : Nat)
    (strategy : ScaleStrategy) (downloadOk scaleOk : String → Bool)
    (out : List String) (hl : 1 ≤ l) :
    (collectedCandidates anns (some l) true).length ≤ 2 * l ∧
    (load_objaverse_assets anns (some l) true strategy downloadOk scaleOk = .ok out →
      out.length ≤ l) ∧
    validatedUids anns (some l) true downloadOk
      = (collectedCandidates anns (some l) true).filter downloadOk := by
  refine ⟨?_, ?_, ?_⟩
  · have h := collectLoop_length_le (l * 2) anns 0 (by omega)
    have he : collectedCandidates anns (some l) true
        = collectLoop (some (l * 2)) 0 anns := by
      unfold collectedCandidates targetCandidates
      simp
    rw [he]
    omega
  · intro heq
    unfold load_objaverse_assets at heq
    rw [if_neg (by simp)] at heq
    by_cases hc : collectedCandidates anns (some l) true = []
    · rw [if_pos hc] at heq
      simp only [Except.ok.injEq] at heq
      subst heq
      simp
    · rw [if_neg hc] at heq
      exact filterLoop_ok_length strategy l (fun u => downloadOk u && scaleOk u)
        (collectedCandidates anns (some l) true) [] out (by simpa using hl) heq
  · unfold validatedUids
    rw [if_neg (by simp)]
    by_cases hc : collectedCandidates anns (some l) true = []
    · rw [if_pos hc, hc]
      simp
    · rw [if_neg hc]

/-- Witness for C9's amended theorem at a concrete input: two valid
candidate entries, limit 1. -/
theorem load_objaverse_collect_validate_witness :
    (collectedCandidates [⟨"a", true⟩, ⟨"b", true⟩] (some 1) true).length ≤ 2 * 1 ∧
    (["a"] : List String).length ≤ 1 ∧
    validatedUids [⟨"a", true⟩, ⟨"b", true⟩] (some 1) true (fun _ => true)
      = (collectedCandidates [⟨"a", true⟩, ⟨"b", true⟩] (some 1) true).filter
          (fun _ => true) := by
  have h := load_objaverse_collect_validate [⟨"a", true⟩, ⟨"b", true⟩] 1 .reject
    (fun _ => true) (fun _ => true) ["a"] (by decide)
  exact ⟨h.1, h.2.1 rfl, h.2.2⟩

end GraphicsDb
